import Mathlib

/-!
Verification of the game-data load / validate / index / lookup core of the
Star Rupture factory-layout planner.

The definitions below are a shallow embedding of the TypeScript sources:
* `src/core/types/game.ts` — the data model (items, buildings, recipes,
  rails, corporations),
* `src/core/data/validator.ts` — `validateGameData` and its helpers,
* `src/core/data/indices.ts` — `buildGameDataMaps`, `buildGameDataIndices`,
* `src/core/data/lookups.ts` — the lookup layer reading through the store.

JavaScript `Map` objects are modelled as association lists with
insertion-order iteration and overwrite-in-place `set` (`JsMap` below);
JavaScript numbers that the program only compares are modelled as `Int`
or `Nat`; `throw` in the lookup layer is modelled with `Except`.
-/

-- ─────────────────────────────────────────────────────────────
-- Data model (src/core/types/game.ts)
-- ─────────────────────────────────────────────────────────────

inductive ItemType where
  | raw | processed | component | material | ammo
deriving DecidableEq, Repr

structure Item where
  id : String
  name : String
  type : ItemType
  tier : Nat
deriving DecidableEq, Repr

inductive BuildingType where
  | extraction | processing | crafting | generator | transport | storage
  | temperature | habitat | defense | rail_support | rail_junction
deriving DecidableEq, Repr

structure UnlockRequirement where
  corporation : String
  level : Option Int
deriving DecidableEq, Repr

structure Building where
  id : String
  name : String
  type : BuildingType
  size : Nat
  placementConstraint : Option String := none
  power : Int
  heat : Int
  inputSockets : Nat
  outputSockets : Nat
  buildCost : Option (List (String × Nat)) := none
  unlockedBy : Option UnlockRequirement := none
  recipeIds : Option (List String) := none
  capacity : Option Nat := none
  coolingCapacity : Option Nat := none
  railConnections : Option Nat := none
deriving DecidableEq, Repr

inductive Purity where
  | impure | normal | pure
deriving DecidableEq, Repr

structure RecipeItem where
  id : String
  amount : Nat
deriving DecidableEq, Repr

structure Recipe where
  id : String
  buildingId : String
  output : RecipeItem
  inputs : List RecipeItem
  duration : Nat
  outputPerMinute : Nat
  purity : Option Purity := none
deriving DecidableEq, Repr

structure Rail where
  id : String
  name : String
  size : Nat
  capacity : Int
  power : Int
  heat : Int
  buildCost : Option (List (String × Nat)) := none
  unlockedBy : Option UnlockRequirement := none
deriving DecidableEq, Repr

structure CorporationComponent where
  id : String
  points : Int
deriving DecidableEq, Repr

inductive RewardType where
  | building | rail | utility | lem | item | weapon | module_pack | currency | meta
deriving DecidableEq, Repr

structure CorporationReward where
  type : RewardType
  id : Option String := none
  name : Option String := none
  amount : Option Int := none
deriving DecidableEq, Repr

structure CorporationLevel where
  level : Nat
  xp : Int
  components : List CorporationComponent
  rewards : List CorporationReward
deriving DecidableEq, Repr

structure Corporation where
  id : String
  name : String
  description : String
  levels : List CorporationLevel
deriving DecidableEq, Repr

/-- The aggregate raw data produced by the loader (`RawGameData` in
`src/core/data/loader.ts`): five flat arrays. -/
structure RawGameData where
  items : List Item
  buildings : List Building
  recipes : List Recipe
  rails : List Rail
  corporations : List Corporation
deriving DecidableEq, Repr

-- ─────────────────────────────────────────────────────────────
-- JavaScript Map model
-- ─────────────────────────────────────────────────────────────

/-- A JavaScript `Map` modelled as an association list: iteration order is
insertion order, and `set` on an existing key overwrites in place. -/
abbrev JsMap (κ ν : Type) : Type := List (κ × ν)

/-- `Map.prototype.set`: overwrite in place if the key exists, append otherwise. -/
def jsSet [DecidableEq κ] : JsMap κ ν → κ → ν → JsMap κ ν
  | [], k, v => [(k, v)]
  | (k0, v0) :: rest, k, v =>
    if k0 = k then (k, v) :: rest else (k0, v0) :: jsSet rest k v

/-- `Map.prototype.get`. -/
def jsGet [DecidableEq κ] : JsMap κ ν → κ → Option ν
  | [], _ => none
  | (k0, v0) :: rest, k => if k0 = k then some v0 else jsGet rest k

/-- `new Map(pairs)`: insert the pairs left to right. -/
def jsOfList [DecidableEq κ] (l : List (κ × ν)) : JsMap κ ν :=
  l.foldl (fun m p => jsSet m p.1 p.2) []

/-- `Map.prototype.values()`, in iteration (insertion) order. -/
def jsValues (m : JsMap κ ν) : List ν :=
  m.map Prod.snd

-- ─────────────────────────────────────────────────────────────
-- Validator (src/core/data/validator.ts)
-- ─────────────────────────────────────────────────────────────

structure ValidationError where
  code : String
  message : String
  file : String
  entityId : Option String := none
deriving DecidableEq, Repr

structure ValidationResult where
  isValid : Bool
  errors : List ValidationError
deriving DecidableEq, Repr

/-- The DUPLICATE_ID violation for one repeated id, exactly as
`checkDuplicateIds` pushes it. -/
def dupIdError (file entityType dupId : String) : ValidationError :=
  { code := "DUPLICATE_ID"
    message := "Duplicate " ++ entityType ++ " ID: \"" ++ dupId ++ "\""
    file := file
    entityId := some dupId }

/-- The scan inside `checkDuplicateIds`: `seen` is the set of ids of the
records already scanned; a record whose id is in `seen` is flagged, and its
id is added to `seen` either way. -/
def checkDuplicateIdsAux (getId : α → String) (file entityType : String) :
    List α → List String → List ValidationError
  | [], _ => []
  | e :: rest, seen =>
    (if getId e ∈ seen then [dupIdError file entityType (getId e)] else [])
      ++ checkDuplicateIdsAux getId file entityType rest (seen ++ [getId e])

/-- `checkDuplicateIds` from the validator: flag every entity whose id was
already seen earlier in the same array. -/
def checkDuplicateIds (getId : α → String) (entities : List α)
    (file entityType : String) : List ValidationError :=
  checkDuplicateIdsAux getId file entityType entities []

def recipeBuildingRefMessage (r : Recipe) : String :=
  "Recipe \"" ++ r.id ++ "\" references non-existent building \"" ++ r.buildingId ++ "\""

def recipeOutputRefMessage (r : Recipe) : String :=
  "Recipe \"" ++ r.id ++ "\" output references non-existent item \"" ++ r.output.id ++ "\""

def recipeInputRefMessage (r : Recipe) (input : RecipeItem) : String :=
  "Recipe \"" ++ r.id ++ "\" input references non-existent item \"" ++ input.id ++ "\""

/-- The body of the `for (const recipe of data.recipes)` loop of
`validateGameData`: one MISSING_BUILDING_REF if the building id is
unresolved, one MISSING_ITEM_REF if the output item id is unresolved, and
one MISSING_ITEM_REF per unresolved input item id. -/
def recipeRefErrors (itemIds buildingIds : List String) (recipe : Recipe) :
    List ValidationError :=
  (if recipe.buildingId ∈ buildingIds then [] else
    [{ code := "MISSING_BUILDING_REF"
       message := recipeBuildingRefMessage recipe
       file := "recipes.json"
       entityId := some recipe.id }])
  ++ (if recipe.output.id ∈ itemIds then [] else
    [{ code := "MISSING_ITEM_REF"
       message := recipeOutputRefMessage recipe
       file := "recipes.json"
       entityId := some recipe.id }])
  ++ recipe.inputs.flatMap (fun input =>
    if input.id ∈ itemIds then [] else
      [{ code := "MISSING_ITEM_REF"
         message := recipeInputRefMessage recipe input
         file := "recipes.json"
         entityId := some recipe.id }])

/-- The body of the `for (const building of data.buildings)` loop of
`validateGameData`. -/
def buildingRefErrors (recipeIds corporationIds : List String)
    (building : Building) : List ValidationError :=
  (match building.recipeIds with
   | some rids => rids.flatMap (fun rid =>
      if rid ∈ recipeIds then [] else
        [{ code := "MISSING_RECIPE_REF"
           message := "Building \"" ++ building.id ++ "\" references non-existent recipe \"" ++ rid ++ "\""
           file := "buildings.json"
           entityId := some building.id }])
   | none => [])
  ++ (match building.unlockedBy with
   | some u =>
      if u.corporation ∈ corporationIds then [] else
        [{ code := "MISSING_CORPORATION_REF"
           message := "Building \"" ++ building.id ++ "\" references non-existent corporation \"" ++ u.corporation ++ "\""
           file := "buildings.json"
           entityId := some building.id }]
   | none => [])

/-- The body of the `for (const rail of data.rails)` loop of
`validateGameData`. -/
def railRefErrors (corporationIds : List String) (rail : Rail) :
    List ValidationError :=
  match rail.unlockedBy with
  | some u =>
      if u.corporation ∈ corporationIds then [] else
        [{ code := "MISSING_CORPORATION_REF"
           message := "Rail \"" ++ rail.id ++ "\" references non-existent corporation \"" ++ u.corporation ++ "\""
           file := "rails.json"
           entityId := some rail.id }]
  | none => []

def corpRewardBuildingMessage (corpId : String) (levelNum : Nat) (rewardId : String) : String :=
  "Corporation \"" ++ corpId ++ "\" level " ++ toString levelNum
    ++ " reward references non-existent building \"" ++ rewardId ++ "\""

def corpRewardRailMessage (corpId : String) (levelNum : Nat) (rewardId : String) : String :=
  "Corporation \"" ++ corpId ++ "\" level " ++ toString levelNum
    ++ " reward references non-existent rail \"" ++ rewardId ++ "\""

def mkCorpBuildingError (corpId : String) (levelNum : Nat) (rewardId : String) : ValidationError :=
  { code := "MISSING_BUILDING_REF"
    message := corpRewardBuildingMessage corpId levelNum rewardId
    file := "corporations_components.json"
    entityId := some corpId }

def mkCorpRailError (corpId : String) (levelNum : Nat) (rewardId : String) : ValidationError :=
  { code := "MISSING_RAIL_REF"
    message := corpRewardRailMessage corpId levelNum rewardId
    file := "corporations_components.json"
    entityId := some corpId }

/-- The corporation-reward loop of `validateGameData`.  The source guards
each check with `reward.type === "building" && reward.id` (resp. `"rail"`):
`reward.id` is a JavaScript truthiness test, so an absent id and an
empty-string id are both skipped. -/
def corporationRewardErrors (buildingIds railIds : List String)
    (corporation : Corporation) : List ValidationError :=
  corporation.levels.flatMap fun level =>
    level.rewards.flatMap fun reward =>
      match reward.id with
      | some rewardId =>
        (if reward.type = RewardType.building ∧ rewardId ≠ "" ∧ rewardId ∉ buildingIds
         then [mkCorpBuildingError corporation.id level.level rewardId] else [])
        ++ (if reward.type = RewardType.rail ∧ rewardId ≠ "" ∧ rewardId ∉ railIds
         then [mkCorpRailError corporation.id level.level rewardId] else [])
      | none => []

/-- `validateGameData` from `src/core/data/validator.ts`: build the five id
sets, run the duplicate-id scan on each collection, then the recipe,
building, rail and corporation-reward reference checks, collecting every
violation; `isValid` is `errors.length === 0`. -/
def validateGameData (data : RawGameData) : ValidationResult :=
  let itemIds := data.items.map Item.id
  let buildingIds := data.buildings.map Building.id
  let recipeIds := data.recipes.map Recipe.id
  let railIds := data.rails.map Rail.id
  let corporationIds := data.corporations.map Corporation.id
  let errors :=
    checkDuplicateIds Item.id data.items "items_catalog.json" "item"
    ++ checkDuplicateIds Building.id data.buildings "buildings.json" "building"
    ++ checkDuplicateIds Recipe.id data.recipes "recipes.json" "recipe"
    ++ checkDuplicateIds Rail.id data.rails "rails.json" "rail"
    ++ checkDuplicateIds Corporation.id data.corporations "corporations_components.json" "corporation"
    ++ data.recipes.flatMap (recipeRefErrors itemIds buildingIds)
    ++ data.buildings.flatMap (buildingRefErrors recipeIds corporationIds)
    ++ data.rails.flatMap (railRefErrors corporationIds)
    ++ data.corporations.flatMap (corporationRewardErrors buildingIds railIds)
  { isValid := errors.length == 0, errors := errors }

-- ─────────────────────────────────────────────────────────────
-- Index builder (src/core/data/indices.ts)
-- ─────────────────────────────────────────────────────────────

/-- The compiled primary tables (`GameData` in `src/core/types/game.ts`). -/
structure GameData where
  items : JsMap String Item
  buildings : JsMap String Building
  recipes : JsMap String Recipe
  rails : JsMap String Rail
  corporations : JsMap String Corporation
deriving DecidableEq, Repr

/-- `buildGameDataMaps`: convert each raw array to a `Map` keyed by id. -/
def buildGameDataMaps (raw : RawGameData) : GameData :=
  { items := jsOfList (raw.items.map (fun item => (item.id, item)))
    buildings := jsOfList (raw.buildings.map (fun building => (building.id, building)))
    recipes := jsOfList (raw.recipes.map (fun recipe => (recipe.id, recipe)))
    rails := jsOfList (raw.rails.map (fun rail => (rail.id, rail)))
    corporations := jsOfList (raw.corporations.map (fun corp => (corp.id, corp))) }

/-- The `const existing = index.get(k) ?? []; existing.push(x);
index.set(k, existing);` grouping step used by every grouping index builder. -/
def groupPush [DecidableEq κ] (index : JsMap κ (List ν)) (k : κ) (v : ν) :
    JsMap κ (List ν) :=
  jsSet index k (((jsGet index k).getD []) ++ [v])

/-- `buildRecipesByBuilding`. -/
def buildRecipesByBuilding (recipes : JsMap String Recipe) : JsMap String (List Recipe) :=
  (jsValues recipes).foldl (fun index recipe => groupPush index recipe.buildingId recipe) []

/-- `buildRecipesByOutputItem`. -/
def buildRecipesByOutputItem (recipes : JsMap String Recipe) : JsMap String (List Recipe) :=
  (jsValues recipes).foldl (fun index recipe => groupPush index recipe.output.id recipe) []

/-- `buildRecipesByInputItem`: a recipe appears under each of its inputs. -/
def buildRecipesByInputItem (recipes : JsMap String Recipe) : JsMap String (List Recipe) :=
  (jsValues recipes).foldl
    (fun index recipe =>
      recipe.inputs.foldl (fun index2 input => groupPush index2 input.id recipe) index)
    []

/-- `buildBuildingsByType`. -/
def buildBuildingsByType (buildings : JsMap String Building) :
    JsMap BuildingType (List Building) :=
  (jsValues buildings).foldl (fun index building => groupPush index building.type building) []

/-- `buildBuildingsByCorporation`: buildings without `unlockedBy` are not
indexed at all. -/
def buildBuildingsByCorporation (buildings : JsMap String Building) :
    JsMap String (List Building) :=
  (jsValues buildings).foldl
    (fun index building =>
      match building.unlockedBy with
      | some u => groupPush index u.corporation building
      | none => index)
    []

/-- `buildItemsByType`. -/
def buildItemsByType (items : JsMap String Item) : JsMap ItemType (List Item) :=
  (jsValues items).foldl (fun index item => groupPush index item.type item) []

/-- `buildItemsByTier`. -/
def buildItemsByTier (items : JsMap String Item) : JsMap Nat (List Item) :=
  (jsValues items).foldl (fun index item => groupPush index item.tier item) []

/-- `a.capacity ≤ b.capacity`: the comparator `(a, b) => a.capacity - b.capacity`
used to sort rails ascending by capacity. -/
def railCapacityLE (a b : Rail) : Prop :=
  a.capacity ≤ b.capacity

instance : DecidableRel railCapacityLE := fun a b => by
  unfold railCapacityLE; infer_instance

instance : IsTotal Rail railCapacityLE :=
  ⟨fun a b => Int.le_total a.capacity b.capacity⟩

instance : IsTrans Rail railCapacityLE :=
  ⟨fun _ _ _ hab hbc => le_trans hab hbc⟩

/-- `[...new Set(list)]`: deduplicate keeping first occurrences, in order. -/
def jsSetDedup [DecidableEq α] (l : List α) : List α :=
  l.foldl (fun acc x => if x ∈ acc then acc else acc ++ [x]) []

/-- `buildRailIndices`: the capacity-sorted rail sequence, plus, for every
distinct capacity value occurring among the rails, the list of rails whose
capacity is at least that value (a sub-sequence of the sorted sequence). -/
def buildRailIndices (rails : JsMap String Rail) :
    List Rail × JsMap Int (List Rail) :=
  let sortedRails := List.insertionSort railCapacityLE (jsValues rails)
  let uniqueCapacities :=
    List.insertionSort (fun a b => a ≤ b) (jsSetDedup (sortedRails.map Rail.capacity))
  let railsByMinCapacity := uniqueCapacities.foldl
    (fun m minCapacity =>
      jsSet m minCapacity (sortedRails.filter (fun r => decide (minCapacity ≤ r.capacity))))
    []
  (sortedRails, railsByMinCapacity)

/-- `buildRewardsByCorpLevel`: corporation id, then level number, to the
reward list declared at that level. -/
def buildRewardsByCorpLevel (corporations : JsMap String Corporation) :
    JsMap String (JsMap Nat (List CorporationReward)) :=
  (jsValues corporations).foldl
    (fun index corp =>
      jsSet index corp.id
        (corp.levels.foldl (fun levelMap level => jsSet levelMap level.level level.rewards) []))
    []

/-- The pre-computed indices (`GameDataIndices` in `src/core/data/indices.ts`). -/
structure GameDataIndices where
  recipesByBuilding : JsMap String (List Recipe)
  recipesByOutputItem : JsMap String (List Recipe)
  recipesByInputItem : JsMap String (List Recipe)
  buildingsByType : JsMap BuildingType (List Building)
  buildingsByCorporation : JsMap String (List Building)
  itemsByType : JsMap ItemType (List Item)
  itemsByTier : JsMap Nat (List Item)
  railsSortedByCapacity : List Rail
  railsByMinCapacity : JsMap Int (List Rail)
  rewardsByCorpLevel : JsMap String (JsMap Nat (List CorporationReward))
deriving DecidableEq, Repr

/-- `buildGameDataIndices`: all derived indices, built eagerly. -/
def buildGameDataIndices (data : GameData) : GameDataIndices :=
  let railIndices := buildRailIndices data.rails
  { recipesByBuilding := buildRecipesByBuilding data.recipes
    recipesByOutputItem := buildRecipesByOutputItem data.recipes
    recipesByInputItem := buildRecipesByInputItem data.recipes
    buildingsByType := buildBuildingsByType data.buildings
    buildingsByCorporation := buildBuildingsByCorporation data.buildings
    itemsByType := buildItemsByType data.items
    itemsByTier := buildItemsByTier data.items
    railsSortedByCapacity := railIndices.1
    railsByMinCapacity := railIndices.2
    rewardsByCorpLevel := buildRewardsByCorpLevel data.corporations }

-- ─────────────────────────────────────────────────────────────
-- Store and lookup layer (src/core/data/lookups.ts)
-- ─────────────────────────────────────────────────────────────

/-- Modelled from the spec: the process-wide game-data store
(`src/state/gameDataStore.ts` is not among the sources; only its tests and
its callers are).  Per the spec it holds the one live copy of the compiled
data with lifecycle idle → loading → ready/error; its `getGameData` /
`getIndices` accessors throw a "not loaded" error while no successful load
has been committed.  The test suite fixes the initial state to all-null
fields and the exact error messages.  The `lastUpdated` timestamp is
omitted (no claim concerns it). -/
structure GameDataStoreState where
  gameData : Option GameData
  indices : Option GameDataIndices
  isLoading : Bool
  error : Option String
deriving DecidableEq, Repr

/-- Modelled from the spec: the store state before any load was requested. -/
def initialStoreState : GameDataStoreState :=
  { gameData := none, indices := none, isLoading := false, error := none }

/-- Modelled from the spec: the store state right after a successful load of
`raw` — the validated raw arrays compiled into tables and indices and
published atomically. -/
def storeAfterSuccessfulLoad (raw : RawGameData) : GameDataStoreState :=
  { gameData := some (buildGameDataMaps raw)
    indices := some (buildGameDataIndices (buildGameDataMaps raw))
    isLoading := false
    error := none }

/-- Modelled from the spec: a failed load attempt records the error and
publishes nothing; previously committed data, if any, stays readable. -/
def storeAfterFailedLoad (s : GameDataStoreState) (message : String) :
    GameDataStoreState :=
  { s with isLoading := false, error := some message }

def gameDataNotLoadedMessage : String :=
  "Game data not loaded. Call loadGameData() first."

def indicesNotLoadedMessage : String :=
  "Game data indices not loaded. Call loadGameData() first."

/-- `getStoreGameData`: the store accessor that throws if no data is loaded. -/
def getStoreGameData (s : GameDataStoreState) : Except String GameData :=
  match s.gameData with
  | some data => Except.ok data
  | none => Except.error gameDataNotLoadedMessage

/-- `getStoreIndices`: the store accessor that throws if no indices are loaded. -/
def getStoreIndices (s : GameDataStoreState) : Except String GameDataIndices :=
  match s.indices with
  | some indices => Except.ok indices
  | none => Except.error indicesNotLoadedMessage

def getItem (s : GameDataStoreState) (id : String) : Except String (Option Item) := do
  let gameData ← getStoreGameData s
  pure (jsGet gameData.items id)

def getItemsByType (s : GameDataStoreState) (type : ItemType) : Except String (List Item) := do
  let indices ← getStoreIndices s
  pure ((jsGet indices.itemsByType type).getD [])

def getItemsByTier (s : GameDataStoreState) (tier : Nat) : Except String (List Item) := do
  let indices ← getStoreIndices s
  pure ((jsGet indices.itemsByTier tier).getD [])

def getAllItems (s : GameDataStoreState) : Except String (List Item) := do
  let gameData ← getStoreGameData s
  pure (jsValues gameData.items)

def getBuilding (s : GameDataStoreState) (id : String) : Except String (Option Building) := do
  let gameData ← getStoreGameData s
  pure (jsGet gameData.buildings id)

def getBuildingsByType (s : GameDataStoreState) (type : BuildingType) :
    Except String (List Building) := do
  let indices ← getStoreIndices s
  pure ((jsGet indices.buildingsByType type).getD [])

def getBuildingsByCorporation (s : GameDataStoreState) (corpId : String) :
    Except String (List Building) := do
  let indices ← getStoreIndices s
  pure ((jsGet indices.buildingsByCorporation corpId).getD [])

def getAllBuildings (s : GameDataStoreState) : Except String (List Building) := do
  let gameData ← getStoreGameData s
  pure (jsValues gameData.buildings)

def getRecipe (s : GameDataStoreState) (id : String) : Except String (Option Recipe) := do
  let gameData ← getStoreGameData s
  pure (jsGet gameData.recipes id)

def getRecipesByBuilding (s : GameDataStoreState) (buildingId : String) :
    Except String (List Recipe) := do
  let indices ← getStoreIndices s
  pure ((jsGet indices.recipesByBuilding buildingId).getD [])

def getRecipesProducing (s : GameDataStoreState) (itemId : String) :
    Except String (List Recipe) := do
  let indices ← getStoreIndices s
  pure ((jsGet indices.recipesByOutputItem itemId).getD [])

def getRecipesConsuming (s : GameDataStoreState) (itemId : String) :
    Except String (List Recipe) := do
  let indices ← getStoreIndices s
  pure ((jsGet indices.recipesByInputItem itemId).getD [])

def getAllRecipes (s : GameDataStoreState) : Except String (List Recipe) := do
  let gameData ← getStoreGameData s
  pure (jsValues gameData.recipes)

def getRail (s : GameDataStoreState) (id : String) : Except String (Option Rail) := do
  let gameData ← getStoreGameData s
  pure (jsGet gameData.rails id)

/-- `getRailsByMinCapacity`: return the precomputed list when the threshold
is an exact key of `railsByMinCapacity`, otherwise filter the capacity-sorted
rail sequence. -/
def getRailsByMinCapacity (s : GameDataStoreState) (minCapacity : Int) :
    Except String (List Rail) := do
  let indices ← getStoreIndices s
  match jsGet indices.railsByMinCapacity minCapacity with
  | some precomputed => pure precomputed
  | none =>
    pure (indices.railsSortedByCapacity.filter (fun r => decide (minCapacity ≤ r.capacity)))

def getAllRails (s : GameDataStoreState) : Except String (List Rail) := do
  let gameData ← getStoreGameData s
  pure (jsValues gameData.rails)

def getCorporation (s : GameDataStoreState) (id : String) :
    Except String (Option Corporation) := do
  let gameData ← getStoreGameData s
  pure (jsGet gameData.corporations id)

def getAllCorporations (s : GameDataStoreState) : Except String (List Corporation) := do
  let gameData ← getStoreGameData s
  pure (jsValues gameData.corporations)

def getCorporationLevels (s : GameDataStoreState) (corpId : String) :
    Except String (List CorporationLevel) := do
  let corp ← getCorporation s corpId
  pure (match corp with
    | some c => c.levels
    | none => [])

def getRewardsAtLevel (s : GameDataStoreState) (corpId : String) (level : Nat) :
    Except String (List CorporationReward) := do
  let indices ← getStoreIndices s
  pure (((jsGet indices.rewardsByCorpLevel corpId).bind (fun levelMap => jsGet levelMap level)).getD [])

def getRewardsByType (s : GameDataStoreState) (corpId : String) (level : Nat)
    (type : RewardType) : Except String (List CorporationReward) := do
  let rewards ← getRewardsAtLevel s corpId level
  pure (rewards.filter (fun reward => decide (reward.type = type)))

/-- `getRailsUnlockedBy`: rewards of type "rail" composed with the rail
table; `if (reward.id)` is a truthiness test, and unresolved ids are
silently dropped. -/
def getRailsUnlockedBy (s : GameDataStoreState) (corpId : String) (level : Nat) :
    Except String (List Rail) := do
  let rewards ← getRewardsByType s corpId level RewardType.rail
  let gameData ← getStoreGameData s
  pure (rewards.flatMap (fun reward =>
    match reward.id with
    | some rid =>
      if rid = "" then [] else
        match jsGet gameData.rails rid with
        | some rail => [rail]
        | none => []
    | none => []))

/-- `getBuildingsUnlockedBy`: rewards of type "building" composed with the
building table; unresolved ids are silently dropped. -/
def getBuildingsUnlockedBy (s : GameDataStoreState) (corpId : String) (level : Nat) :
    Except String (List Building) := do
  let rewards ← getRewardsByType s corpId level RewardType.building
  let gameData ← getStoreGameData s
  pure (rewards.flatMap (fun reward =>
    match reward.id with
    | some rid =>
      if rid = "" then [] else
        match jsGet gameData.buildings rid with
        | some building => [building]
        | none => []
    | none => []))

-- ─────────────────────────────────────────────────────────────
-- Reference-level model of the shared grouped arrays
-- ─────────────────────────────────────────────────────────────

/-- A heap of item arrays: JavaScript array objects are mutable references,
so the grouping index stores heap addresses and `getItemsByType` hands the
caller the very array object held by the index (no defensive copy). -/
abbrev ItemHeap : Type := List (List Item)

/-- One step of `buildItemsByType` at reference level: `index.get(t)` either
yields the address of the existing group array, which is then mutated in
place by `existing.push(item)`, or a fresh array is allocated and its
address recorded. -/
def itemsByTypePush (state : ItemHeap × JsMap ItemType Nat) (item : Item) :
    ItemHeap × JsMap ItemType Nat :=
  match jsGet state.2 item.type with
  | some addr => (state.1.set addr ((state.1.getD addr []) ++ [item]), state.2)
  | none => (state.1 ++ [[item]], jsSet state.2 item.type state.1.length)

/-- `buildItemsByType` at reference level: the heap of group arrays plus the
type-to-address index. -/
def buildItemsByTypeShared (items : List Item) : ItemHeap × JsMap ItemType Nat :=
  items.foldl itemsByTypePush ([], [])

/-- `getItemsByType` at reference level: `indices.itemsByType.get(type) ?? []`
returns the stored array reference itself when the key is present; `none`
models the fresh empty array of the `?? []` fallback. -/
def getItemsByTypeRef (index : JsMap ItemType Nat) (type : ItemType) : Option Nat :=
  jsGet index type

/-- What a caller holding the returned reference observes on the heap. -/
def readItemsRef (heap : ItemHeap) (ref : Option Nat) : List Item :=
  match ref with
  | some addr => heap.getD addr []
  | none => []

/-- A caller mutating the list it received, through its reference. -/
def writeItemsRef (heap : ItemHeap) (ref : Option Nat) (l : List Item) : ItemHeap :=
  match ref with
  | some addr => heap.set addr l
  | none => heap

-- ─────────────────────────────────────────────────────────────
-- Lemmas about the JavaScript Map model
-- ─────────────────────────────────────────────────────────────

theorem jsGet_jsSet [DecidableEq κ] (m : JsMap κ ν) (k k2 : κ) (v : ν) :
    jsGet (jsSet m k v) k2 = if k = k2 then some v else jsGet m k2 := by
  induction m with
  | nil =>
    by_cases h : k = k2 <;> simp [jsSet, jsGet, h]
  | cons p rest ih =>
    obtain ⟨k0, v0⟩ := p
    simp only [jsSet]
    by_cases h0 : k0 = k
    · subst h0
      by_cases h : k0 = k2 <;> simp [jsGet, h]
    · simp only [if_neg h0, jsGet]
      by_cases h2 : k0 = k2
      · subst h2
        simp only [if_pos rfl]
        have : ¬ k = k0 := fun h => h0 h.symm
        simp [this]
      · simp [h2, ih]

theorem jsSet_of_not_mem_keys [DecidableEq κ] (m : JsMap κ ν) (k : κ) (v : ν)
    (h : k ∉ m.map Prod.fst) : jsSet m k v = m ++ [(k, v)] := by
  induction m with
  | nil => rfl
  | cons p rest ih =>
    obtain ⟨k0, v0⟩ := p
    simp only [List.map_cons, List.mem_cons] at h
    push_neg at h
    simp only [jsSet]
    rw [if_neg (fun hk => h.1 hk.symm)]
    simp [ih h.2]

theorem jsOfList_of_nodup_keys [DecidableEq κ] (pairs : List (κ × ν))
    (h : (pairs.map Prod.fst).Nodup) : jsOfList pairs = pairs := by
  suffices general : ∀ (acc : JsMap κ ν), ((acc ++ pairs).map Prod.fst).Nodup →
      pairs.foldl (fun m p => jsSet m p.1 p.2) acc = acc ++ pairs by
    have := general [] (by simpa using h)
    simpa [jsOfList] using this
  clear h
  induction pairs with
  | nil => intro acc _; simp
  | cons p rest ih =>
    intro acc hacc
    obtain ⟨k, v⟩ := p
    simp only [List.foldl_cons]
    rw [List.map_append, List.nodup_append] at hacc
    have hknot : k ∉ acc.map Prod.fst := by
      intro hk
      exact hacc.2.2 hk (by simp)
    rw [jsSet_of_not_mem_keys acc k v hknot]
    have hax : acc ++ (k, v) :: rest = (acc ++ [(k, v)]) ++ rest := by
      simp
    have ih2 := ih (acc ++ [(k, v)])
    rw [← hax] at ih2
    rw [List.map_append, List.nodup_append] at ih2
    exact ih2 ⟨hacc.1, hacc.2.1, hacc.2.2⟩

theorem jsGet_of_nodup_keys_mem [DecidableEq κ] (pairs : List (κ × ν)) (k : κ) (v : ν)
    (hnd : (pairs.map Prod.fst).Nodup) (hmem : (k, v) ∈ pairs) :
    jsGet pairs k = some v := by
  induction pairs with
  | nil => cases hmem
  | cons p rest ih =>
    obtain ⟨k0, v0⟩ := p
    simp only [List.map_cons, List.nodup_cons] at hnd
    rw [List.mem_cons] at hmem
    rcases hmem with h | h
    · simp only [Prod.mk.injEq] at h
      obtain ⟨hk, hv⟩ := h
      subst hk
      subst hv
      simp [jsGet]
    · have hk : k0 ≠ k := by
        intro he
        subst he
        exact hnd.1 (List.mem_map_of_mem Prod.fst h)
      simp only [jsGet, if_neg hk]
      exact ih hnd.2 h

theorem jsGet_foldl_keyed [DecidableEq κ] (f : κ → ν) (caps : List κ)
    (m0 : JsMap κ ν) (t : κ) :
    jsGet (caps.foldl (fun m c => jsSet m c (f c)) m0) t
      = if t ∈ caps then some (f t) else jsGet m0 t := by
  induction caps generalizing m0 with
  | nil => simp
  | cons c rest ih =>
    simp only [List.foldl_cons]
    rw [ih]
    by_cases hr : t ∈ rest
    · simp [hr]
    · by_cases hc : c = t
      · subst hc
        simp [hr, jsGet_jsSet]
      · have hne : ¬ t = c := fun he => hc he.symm
        have hnc : ¬ t ∈ c :: rest := by
          rw [List.mem_cons]
          rintro (he | he)
          · exact hne he
          · exact hr he
        simp only [if_neg hr, if_neg hnc, jsGet_jsSet, if_neg hc]

theorem mem_jsSetDedup [DecidableEq α] (l : List α) (x : α) :
    x ∈ jsSetDedup l ↔ x ∈ l := by
  suffices general : ∀ acc : List α,
      (x ∈ l.foldl (fun acc y => if y ∈ acc then acc else acc ++ [y]) acc ↔ x ∈ acc ∨ x ∈ l) by
    simpa [jsSetDedup] using general []
  induction l with
  | nil => intro acc; simp
  | cons y rest ih =>
    intro acc
    simp only [List.foldl_cons]
    by_cases hy : y ∈ acc
    · rw [if_pos hy, ih acc]
      constructor
      · rintro (h | h)
        · exact Or.inl h
        · exact Or.inr (List.mem_cons_of_mem y h)
      · rintro (h | h)
        · exact Or.inl h
        · rcases List.mem_cons.mp h with h | h
          · exact Or.inl (h ▸ hy)
          · exact Or.inr h
    · rw [if_neg hy, ih (acc ++ [y])]
      simp only [List.mem_append, List.mem_singleton, List.mem_cons]
      tauto

theorem mem_groupPush [DecidableEq κ] (index : JsMap κ (List ν)) (k0 k : κ)
    (v x : ν) :
    (x ∈ (jsGet (groupPush index k0 v) k).getD []) ↔
      (x ∈ (jsGet index k).getD []) ∨ (k = k0 ∧ x = v) := by
  unfold groupPush
  rw [jsGet_jsSet]
  by_cases hk : k0 = k
  · subst hk
    cases h : jsGet index k0 <;> simp [h]
  · have : ¬ k = k0 := fun he => hk he.symm
    simp [hk, this]

-- ─────────────────────────────────────────────────────────────
-- Validator lemmas
-- ─────────────────────────────────────────────────────────────

/-- Specification-side description of the duplicate scan: walking the id
list in input order with the list `seen` of ids of the records already
scanned, flag exactly the ids that occurred earlier. -/
def flaggedIds (seen : List String) : List String → List String
  | [] => []
  | x :: rest => (if x ∈ seen then [x] else []) ++ flaggedIds (seen ++ [x]) rest

theorem checkDuplicateIdsAux_eq_flaggedIds (getId : α → String)
    (file entityType : String) (entities : List α) :
    ∀ seen, checkDuplicateIdsAux getId file entityType entities seen
      = (flaggedIds seen (entities.map getId)).map (dupIdError file entityType) := by
  induction entities with
  | nil => intro seen; rfl
  | cons e rest ih =>
    intro seen
    simp only [checkDuplicateIdsAux, List.map_cons, flaggedIds, List.map_append, ih]
    by_cases h : getId e ∈ seen <;> simp [h]

theorem flaggedIds_append (x : String) (ids : List String) :
    ∀ seen, flaggedIds seen (ids ++ [x])
      = flaggedIds seen ids ++ (if x ∈ seen ++ ids then [x] else []) := by
  induction ids with
  | nil => intro seen; simp [flaggedIds]
  | cons y rest ih =>
    intro seen
    rw [List.cons_append]
    simp only [flaggedIds]
    rw [ih (seen ++ [y]), List.append_assoc]
    have hm : seen ++ ([y] ++ rest) = seen ++ y :: rest := by simp
    rw [hm, List.append_assoc]

theorem flaggedIds_count (ids : List String) :
    ∀ (seen : List String) (x : String),
      (flaggedIds seen ids).count x = if x ∈ seen then ids.count x else ids.count x - 1 := by
  induction ids with
  | nil => intro seen x; simp [flaggedIds]
  | cons y rest ih =>
    intro seen x
    simp only [flaggedIds, List.count_append]
    rw [ih (seen ++ [y]) x]
    have hys : List.count x (if y ∈ seen then [y] else [])
        = if y ∈ seen ∧ x = y then 1 else 0 := by
      by_cases h1 : y ∈ seen <;> by_cases h2 : x = y <;>
        simp [h1, h2, List.count_cons]
    rw [hys]
    by_cases h2 : x = y
    · subst h2
      by_cases h1 : x ∈ seen
      · have hm : x ∈ seen ++ [x] := by simp
        simp [h1, hm, List.count_cons]
        omega
      · have hm : x ∈ seen ++ [x] := by simp
        simp [h1, hm, List.count_cons]
    · have hm : (x ∈ seen ++ [y]) ↔ x ∈ seen := by
        simp [List.mem_append, h2]
      by_cases h3 : x ∈ seen
      · simp [h2, h3, hm, List.count_cons]
      · simp [h2, h3, hm, List.count_cons]

theorem code_of_mem_checkDuplicateIdsAux (getId : α → String)
    (file entityType : String) (entities : List α) :
    ∀ seen e, e ∈ checkDuplicateIdsAux getId file entityType entities seen →
      e.code = "DUPLICATE_ID" := by
  induction entities with
  | nil => intro seen e h; cases h
  | cons a rest ih =>
    intro seen e h
    simp only [checkDuplicateIdsAux, List.mem_append] at h
    rcases h with h | h
    · by_cases hs : getId a ∈ seen
      · rw [if_pos hs, List.mem_singleton] at h
        subst h
        rfl
      · rw [if_neg hs] at h
        cases h
    · exact ih (seen ++ [getId a]) e h

theorem code_of_mem_recipeRefErrors (itemIds buildingIds : List String)
    (recipe : Recipe) (e : ValidationError)
    (h : e ∈ recipeRefErrors itemIds buildingIds recipe) :
    e.code = "MISSING_BUILDING_REF" ∨ e.code = "MISSING_ITEM_REF" := by
  unfold recipeRefErrors at h
  simp only [List.mem_append, List.mem_flatMap] at h
  rcases h with (h | h) | h
  · split_ifs at h
    · cases h
    · rw [List.mem_singleton] at h
      subst h
      exact Or.inl rfl
  · split_ifs at h
    · cases h
    · rw [List.mem_singleton] at h
      subst h
      exact Or.inr rfl
  · obtain ⟨input, _, h⟩ := h
    split_ifs at h
    · cases h
    · rw [List.mem_singleton] at h
      subst h
      exact Or.inr rfl

theorem code_of_mem_buildingRefErrors (recipeIds corporationIds : List String)
    (building : Building) (e : ValidationError)
    (h : e ∈ buildingRefErrors recipeIds corporationIds building) :
    e.code = "MISSING_RECIPE_REF" ∨ e.code = "MISSING_CORPORATION_REF" := by
  unfold buildingRefErrors at h
  simp only [List.mem_append] at h
  rcases h with h | h
  · rcases hr : building.recipeIds with _ | rids
    · rw [hr] at h; cases h
    · rw [hr] at h
      dsimp only at h
      rw [List.mem_flatMap] at h
      obtain ⟨rid, _, h⟩ := h
      split_ifs at h
      · cases h
      · rw [List.mem_singleton] at h
        subst h
        exact Or.inl rfl
  · rcases hu : building.unlockedBy with _ | u
    · rw [hu] at h; cases h
    · rw [hu] at h
      dsimp only at h
      split_ifs at h
      · cases h
      · rw [List.mem_singleton] at h
        subst h
        exact Or.inr rfl

theorem code_of_mem_railRefErrors (corporationIds : List String)
    (rail : Rail) (e : ValidationError)
    (h : e ∈ railRefErrors corporationIds rail) :
    e.code = "MISSING_CORPORATION_REF" := by
  unfold railRefErrors at h
  rcases hu : rail.unlockedBy with _ | u
  · rw [hu] at h; cases h
  · rw [hu] at h
    dsimp only at h
    split_ifs at h
    · cases h
    · rw [List.mem_singleton] at h
      subst h
      rfl

theorem code_of_mem_corporationRewardErrors (buildingIds railIds : List String)
    (corporation : Corporation) (e : ValidationError)
    (h : e ∈ corporationRewardErrors buildingIds railIds corporation) :
    e.code = "MISSING_BUILDING_REF" ∨ e.code = "MISSING_RAIL_REF" := by
  unfold corporationRewardErrors at h
  rw [List.mem_flatMap] at h
  obtain ⟨level, _, h⟩ := h
  rw [List.mem_flatMap] at h
  obtain ⟨reward, _, h⟩ := h
  rcases hid : reward.id with _ | rid
  · rw [hid] at h; cases h
  · rw [hid] at h
    dsimp only at h
    rw [List.mem_append] at h
    rcases h with h | h <;> split_ifs at h
    · rw [List.mem_singleton] at h
      subst h
      exact Or.inl rfl
    · cases h
    · rw [List.mem_singleton] at h
      subst h
      exact Or.inr rfl
    · cases h

/-- Claim C1: for every `RawGameData` input, `validateGameData` returns a
result whose `isValid` flag is true if and only if its list of violations is
empty. -/
theorem validateGameData_isValid_iff_no_errors (data : RawGameData) :
    (validateGameData data).isValid = true ↔ (validateGameData data).errors = [] := by
  have h : (validateGameData data).isValid = ((validateGameData data).errors.length == 0) := rfl
  rw [h, beq_iff_eq, List.length_eq_zero]

/-- Claim C2: the DUPLICATE_ID violations of `validateGameData` are exactly
the five collections' duplicate scans, run independently and concatenated in
collection order (first conjunct, with each violation naming the duplicated
id and the collection's source file as `dupIdError` shows); each collection
is scanned in input order, flagging exactly the records whose id is in the
list of ids seen earlier (second and third conjuncts: appending one more
record to a collection flags it exactly when its id occurred in the
preceding prefix, so the first occurrence of an id is never flagged); and
per id the number of flagged records is its occurrence count minus one
(fourth conjunct) — hence a dataset with exactly one duplicated id in one
collection yields exactly one DUPLICATE_ID violation and zero from the
other four collections. -/
theorem validateGameData_duplicate_id_check (data : RawGameData) :
    ((validateGameData data).errors.filter (fun e => e.code == "DUPLICATE_ID")
      = checkDuplicateIds Item.id data.items "items_catalog.json" "item"
        ++ checkDuplicateIds Building.id data.buildings "buildings.json" "building"
        ++ checkDuplicateIds Recipe.id data.recipes "recipes.json" "recipe"
        ++ checkDuplicateIds Rail.id data.rails "rails.json" "rail"
        ++ checkDuplicateIds Corporation.id data.corporations "corporations_components.json" "corporation")
    ∧ (∀ (α : Type) (getId : α → String) (entities : List α) (file entityType : String),
        checkDuplicateIds getId entities file entityType
          = (flaggedIds [] (entities.map getId)).map (dupIdError file entityType))
    ∧ (∀ (ids : List String) (x : String),
        flaggedIds [] (ids ++ [x]) = flaggedIds [] ids ++ (if x ∈ ids then [x] else []))
    ∧ (∀ (ids : List String) (x : String),
        (flaggedIds [] ids).count x = ids.count x - 1) := by
  refine ⟨?_, ?_, ?_, ?_⟩
  · have herrs : (validateGameData data).errors =
        checkDuplicateIds Item.id data.items "items_catalog.json" "item"
        ++ checkDuplicateIds Building.id data.buildings "buildings.json" "building"
        ++ checkDuplicateIds Recipe.id data.recipes "recipes.json" "recipe"
        ++ checkDuplicateIds Rail.id data.rails "rails.json" "rail"
        ++ checkDuplicateIds Corporation.id data.corporations "corporations_components.json" "corporation"
        ++ data.recipes.flatMap
            (recipeRefErrors (data.items.map Item.id) (data.buildings.map Building.id))
        ++ data.buildings.flatMap
            (buildingRefErrors (data.recipes.map Recipe.id) (data.corporations.map Corporation.id))
        ++ data.rails.flatMap (railRefErrors (data.corporations.map Corporation.id))
        ++ data.corporations.flatMap
            (corporationRewardErrors (data.buildings.map Building.id) (data.rails.map Rail.id)) := rfl
    rw [herrs]
    repeat rw [List.filter_append]
    have hdup : ∀ (β : Type) (getId : β → String) (es : List β) (f ty : String),
        (checkDuplicateIds getId es f ty).filter (fun e => e.code == "DUPLICATE_ID")
          = checkDuplicateIds getId es f ty := by
      intro β getId es f ty
      rw [List.filter_eq_self]
      intro e he
      have hc := code_of_mem_checkDuplicateIdsAux getId f ty es [] e he
      simp [hc]
    have hf1 : (data.recipes.flatMap
        (recipeRefErrors (data.items.map Item.id) (data.buildings.map Building.id))).filter
          (fun e => e.code == "DUPLICATE_ID") = [] := by
      rw [List.filter_eq_nil_iff]
      intro e he
      rw [List.mem_flatMap] at he
      obtain ⟨r, _, he⟩ := he
      rcases code_of_mem_recipeRefErrors _ _ _ _ he with hc | hc <;> simp [hc]
    have hf2 : (data.buildings.flatMap
        (buildingRefErrors (data.recipes.map Recipe.id) (data.corporations.map Corporation.id))).filter
          (fun e => e.code == "DUPLICATE_ID") = [] := by
      rw [List.filter_eq_nil_iff]
      intro e he
      rw [List.mem_flatMap] at he
      obtain ⟨b, _, he⟩ := he
      rcases code_of_mem_buildingRefErrors _ _ _ _ he with hc | hc <;> simp [hc]
    have hf3 : (data.rails.flatMap (railRefErrors (data.corporations.map Corporation.id))).filter
          (fun e => e.code == "DUPLICATE_ID") = [] := by
      rw [List.filter_eq_nil_iff]
      intro e he
      rw [List.mem_flatMap] at he
      obtain ⟨r, _, he⟩ := he
      have hc := code_of_mem_railRefErrors _ _ _ he
      simp [hc]
    have hf4 : (data.corporations.flatMap
        (corporationRewardErrors (data.buildings.map Building.id) (data.rails.map Rail.id))).filter
          (fun e => e.code == "DUPLICATE_ID") = [] := by
      rw [List.filter_eq_nil_iff]
      intro e he
      rw [List.mem_flatMap] at he
      obtain ⟨c, _, he⟩ := he
      rcases code_of_mem_corporationRewardErrors _ _ _ _ he with hc | hc <;> simp [hc]
    rw [hdup, hdup, hdup, hdup, hdup, hf1, hf2, hf3, hf4]
    simp
  · intro β getId entities file entityType
    exact checkDuplicateIdsAux_eq_flaggedIds getId file entityType entities []
  · intro ids x
    have h := flaggedIds_append x ids []
    simpa using h
  · intro ids x
    have h := flaggedIds_count ids [] x
    simpa using h

/-- Claim C3: for every recipe, `validateGameData` emits exactly one
violation per unresolved reference.  The first conjunct places the per-recipe
reference check inside `validateGameData`'s error list (one contribution per
recipe, in input order).  The second and third conjuncts count, per recipe:
exactly one MISSING_BUILDING_REF when the building id is unresolved, and a
MISSING_ITEM_REF count equal to (one if the output item id is unresolved)
plus the number of unresolved input item ids — so a recipe with two bad
inputs yields exactly two MISSING_ITEM_REF violations, not fewer and not
merged.  The fourth conjunct shows every MISSING_ITEM_REF message is either
the "output references" message or an "input references" message for one of
the recipe's unresolved inputs, distinguishing output from input references. -/
theorem validateGameData_recipe_ref_check (data : RawGameData) :
    ((validateGameData data).errors
      = checkDuplicateIds Item.id data.items "items_catalog.json" "item"
        ++ checkDuplicateIds Building.id data.buildings "buildings.json" "building"
        ++ checkDuplicateIds Recipe.id data.recipes "recipes.json" "recipe"
        ++ checkDuplicateIds Rail.id data.rails "rails.json" "rail"
        ++ checkDuplicateIds Corporation.id data.corporations "corporations_components.json" "corporation"
        ++ data.recipes.flatMap
            (recipeRefErrors (data.items.map Item.id) (data.buildings.map Building.id))
        ++ data.buildings.flatMap
            (buildingRefErrors (data.recipes.map Recipe.id) (data.corporations.map Corporation.id))
        ++ data.rails.flatMap (railRefErrors (data.corporations.map Corporation.id))
        ++ data.corporations.flatMap
            (corporationRewardErrors (data.buildings.map Building.id) (data.rails.map Rail.id)))
    ∧ (∀ (itemIds buildingIds : List String) (r : Recipe),
        ((recipeRefErrors itemIds buildingIds r).filter
            (fun e => e.code == "MISSING_BUILDING_REF")).length
          = if r.buildingId ∈ buildingIds then 0 else 1)
    ∧ (∀ (itemIds buildingIds : List String) (r : Recipe),
        ((recipeRefErrors itemIds buildingIds r).filter
            (fun e => e.code == "MISSING_ITEM_REF")).length
          = (if r.output.id ∈ itemIds then 0 else 1)
            + (r.inputs.filter (fun input => decide (input.id ∉ itemIds))).length)
    ∧ (∀ (itemIds buildingIds : List String) (r : Recipe) (e : ValidationError),
        e ∈ recipeRefErrors itemIds buildingIds r → e.code = "MISSING_ITEM_REF" →
          (e.message = recipeOutputRefMessage r ∧ r.output.id ∉ itemIds)
          ∨ (∃ input, input ∈ r.inputs ∧ input.id ∉ itemIds
              ∧ e.message = recipeInputRefMessage r input)) := by
  refine ⟨rfl, ?_, ?_, ?_⟩
  · intro itemIds buildingIds r
    unfold recipeRefErrors
    rw [List.filter_append, List.filter_append]
    have h3 : ((r.inputs.flatMap fun input =>
        if input.id ∈ itemIds then [] else
          [{ code := "MISSING_ITEM_REF"
             message := recipeInputRefMessage r input
             file := "recipes.json"
             entityId := some r.id : ValidationError }]).filter
        (fun e => e.code == "MISSING_BUILDING_REF")) = [] := by
      rw [List.filter_eq_nil_iff]
      intro e he
      rw [List.mem_flatMap] at he
      obtain ⟨input, _, he⟩ := he
      split_ifs at he
      · cases he
      · rw [List.mem_singleton] at he
        subst he
        simp
    rw [h3]
    by_cases hb : r.buildingId ∈ buildingIds <;>
      by_cases ho : r.output.id ∈ itemIds <;>
        simp [hb, ho]
  · intro itemIds buildingIds r
    unfold recipeRefErrors
    rw [List.filter_append, List.filter_append, List.length_append, List.length_append]
    have h1 : ((if r.buildingId ∈ buildingIds then ([] : List ValidationError) else
        [{ code := "MISSING_BUILDING_REF"
           message := recipeBuildingRefMessage r
           file := "recipes.json"
           entityId := some r.id }]).filter (fun e => e.code == "MISSING_ITEM_REF")).length
        = 0 := by
      by_cases hb : r.buildingId ∈ buildingIds <;> simp [hb]
    have h2 : ((if r.output.id ∈ itemIds then ([] : List ValidationError) else
        [{ code := "MISSING_ITEM_REF"
           message := recipeOutputRefMessage r
           file := "recipes.json"
           entityId := some r.id }]).filter (fun e => e.code == "MISSING_ITEM_REF")).length
        = if r.output.id ∈ itemIds then 0 else 1 := by
      by_cases ho : r.output.id ∈ itemIds <;> simp [ho]
    have h3 : ∀ (l : List RecipeItem),
        ((l.flatMap fun input =>
          if input.id ∈ itemIds then [] else
            [{ code := "MISSING_ITEM_REF"
               message := recipeInputRefMessage r input
               file := "recipes.json"
               entityId := some r.id : ValidationError }]).filter
          (fun e => e.code == "MISSING_ITEM_REF")).length
        = (l.filter (fun input => decide (input.id ∉ itemIds))).length := by
      intro l
      induction l with
      | nil => rfl
      | cons input rest ih =>
        rw [List.flatMap_cons, List.filter_append, List.length_append, ih, List.filter_cons]
        by_cases hi : input.id ∈ itemIds <;> first
          | (rw [if_pos hi]; simp [hi])
          | (rw [if_neg hi]; simp [hi]; omega)
    rw [h1, h2, h3]
    omega
  · intro itemIds buildingIds r e he hcode
    unfold recipeRefErrors at he
    simp only [List.mem_append, List.mem_flatMap] at he
    rcases he with (he | he) | he
    · split_ifs at he
      · cases he
      · rw [List.mem_singleton] at he
        subst he
        exact absurd (show ("MISSING_BUILDING_REF" : String) = "MISSING_ITEM_REF" from hcode)
          (by decide)
    · split_ifs at he with ho
      · cases he
      · rw [List.mem_singleton] at he
        subst he
        exact Or.inl ⟨rfl, ho⟩
    · obtain ⟨input, hin, he⟩ := he
      split_ifs at he with hi
      · cases he
      · rw [List.mem_singleton] at he
        subst he
        exact Or.inr ⟨input, hin, hi, rfl⟩

/-- A recipe fixture with two unresolved input item ids, used to exercise
the per-recipe reference-count theorem. -/
def twoBadInputsRecipe : Recipe :=
  { id := "bad_recipe"
    buildingId := "smelter"
    output := { id := "bar_titanium", amount := 1 }
    inputs := [{ id := "missing_one", amount := 2 }, { id := "missing_two", amount := 3 }]
    duration := 10
    outputPerMinute := 6 }

/-- Witness for C3 at a concrete input: a recipe whose building and output
resolve but whose two inputs do not yields exactly two MISSING_ITEM_REF
violations and zero MISSING_BUILDING_REF violations. -/
theorem validateGameData_recipe_ref_check_witness :
    ((recipeRefErrors ["bar_titanium"] ["smelter"] twoBadInputsRecipe).filter
        (fun e => e.code == "MISSING_ITEM_REF")).length = 2
    ∧ ((recipeRefErrors ["bar_titanium"] ["smelter"] twoBadInputsRecipe).filter
        (fun e => e.code == "MISSING_BUILDING_REF")).length = 0 := by
  constructor
  · have h := (validateGameData_recipe_ref_check
      { items := [], buildings := [], recipes := [], rails := [], corporations := [] }).2.2.1
      ["bar_titanium"] ["smelter"] twoBadInputsRecipe
    rw [h]
    decide
  · have h := (validateGameData_recipe_ref_check
      { items := [], buildings := [], recipes := [], rails := [], corporations := [] }).2.1
      ["bar_titanium"] ["smelter"] twoBadInputsRecipe
    rw [h]
    decide

/-- A corporation whose only level-1 reward is of type "building" and
carries the present—but empty—id `""`: the claim requires a
MISSING_BUILDING_REF violation for it (no building has the empty id), yet
the code's JavaScript truthiness guard `reward.type === "building" && reward.id`
skips it. -/
def emptyIdReward : CorporationReward :=
  { type := RewardType.building, id := some "" }

def emptyIdRewardCorp : Corporation :=
  { id := "selenian_corporation"
    name := "Selenian"
    description := "test corporation"
    levels := [{ level := 1, xp := 0, components := [], rewards := [emptyIdReward] }] }

def emptyIdRewardData : RawGameData :=
  { items := [], buildings := [], recipes := [], rails := [], corporations := [emptyIdRewardCorp] }

/-- Counterexample to claim C4 as stated: `emptyIdRewardData` contains a
corporation-level reward of type "building" whose id is present
(`reward.id = some ""`) and resolves to no existing building, so the claim
demands one MISSING_BUILDING_REF violation — but `validateGameData` returns
no violations at all, because the `reward.id` truthiness guard treats the
empty string as absent. -/
theorem corporation_reward_empty_id_not_flagged :
    (emptyIdReward.type = RewardType.building
      ∧ emptyIdReward.id.isSome = true
      ∧ (∀ b, b ∈ emptyIdRewardData.buildings → some b.id ≠ emptyIdReward.id)
      ∧ emptyIdReward ∈ ((emptyIdRewardData.corporations.flatMap Corporation.levels).flatMap
          CorporationLevel.rewards))
    ∧ (validateGameData emptyIdRewardData).errors = [] := by
  refine ⟨⟨rfl, rfl, ?_, ?_⟩, ?_⟩
  · intro b hb
    cases hb
  · decide
  · decide

/-- Claim C4 (amended): for every corporation-level reward,
`validateGameData` checks only rewards of type "building" or "rail" whose id
is present *and non-empty* (the source's `reward.id` truthiness guard treats
an empty-string id like an absent one), emitting MISSING_BUILDING_REF
(resp. MISSING_RAIL_REF) when the id resolves to no building (resp. rail),
with a message that includes the corporation id and the level number
(`corpRewardBuildingMessage` / `corpRewardRailMessage`); rewards without a
non-empty id and rewards of every other type are never checked, so a
corporation whose rewards are entirely non-checkable types contributes no
violations regardless of their content.  The first conjunct places the
check inside `validateGameData`; the remaining conjuncts characterise it. -/
theorem validateGameData_reward_ref_check (data : RawGameData) :
    ((validateGameData data).errors
      = checkDuplicateIds Item.id data.items "items_catalog.json" "item"
        ++ checkDuplicateIds Building.id data.buildings "buildings.json" "building"
        ++ checkDuplicateIds Recipe.id data.recipes "recipes.json" "recipe"
        ++ checkDuplicateIds Rail.id data.rails "rails.json" "rail"
        ++ checkDuplicateIds Corporation.id data.corporations "corporations_components.json" "corporation"
        ++ data.recipes.flatMap
            (recipeRefErrors (data.items.map Item.id) (data.buildings.map Building.id))
        ++ data.buildings.flatMap
            (buildingRefErrors (data.recipes.map Recipe.id) (data.corporations.map Corporation.id))
        ++ data.rails.flatMap (railRefErrors (data.corporations.map Corporation.id))
        ++ data.corporations.flatMap
            (corporationRewardErrors (data.buildings.map Building.id) (data.rails.map Rail.id)))
    ∧ (∀ (buildingIds railIds : List String) (corp : Corporation),
        (∀ level, level ∈ corp.levels → ∀ reward, reward ∈ level.rewards →
          (reward.type ≠ RewardType.building ∧ reward.type ≠ RewardType.rail)
          ∨ reward.id = none ∨ reward.id = some "") →
        corporationRewardErrors buildingIds railIds corp = [])
    ∧ (∀ (buildingIds railIds : List String) (corp : Corporation) (e : ValidationError),
        e ∈ corporationRewardErrors buildingIds railIds corp →
        ∃ level, level ∈ corp.levels ∧ ∃ reward, reward ∈ level.rewards ∧
          ∃ rid, reward.id = some rid ∧ rid ≠ "" ∧
            ((reward.type = RewardType.building ∧ rid ∉ buildingIds
              ∧ e = mkCorpBuildingError corp.id level.level rid)
             ∨ (reward.type = RewardType.rail ∧ rid ∉ railIds
              ∧ e = mkCorpRailError corp.id level.level rid)))
    ∧ (∀ (buildingIds railIds : List String) (corp : Corporation)
        (level : CorporationLevel) (reward : CorporationReward) (rid : String),
        level ∈ corp.levels → reward ∈ level.rewards → reward.id = some rid → rid ≠ "" →
          ((reward.type = RewardType.building → rid ∉ buildingIds →
            mkCorpBuildingError corp.id level.level rid
              ∈ corporationRewardErrors buildingIds railIds corp)
           ∧ (reward.type = RewardType.rail → rid ∉ railIds →
            mkCorpRailError corp.id level.level rid
              ∈ corporationRewardErrors buildingIds railIds corp))) := by
  refine ⟨rfl, ?_, ?_, ?_⟩
  · intro buildingIds railIds corp hclean
    unfold corporationRewardErrors
    rw [List.flatMap_eq_nil_iff]
    intro level hlevel
    rw [List.flatMap_eq_nil_iff]
    intro reward hreward
    rcases hid : reward.id with _ | rid
    · rfl
    · dsimp only
      rcases hclean level hlevel reward hreward with htype | hnone | hempty
      · have hb : ¬ (reward.type = RewardType.building ∧ rid ≠ "" ∧ rid ∉ buildingIds) :=
          fun hc => htype.1 hc.1
        have hr : ¬ (reward.type = RewardType.rail ∧ rid ≠ "" ∧ rid ∉ railIds) :=
          fun hc => htype.2 hc.1
        rw [if_neg hb, if_neg hr]
        rfl
      · rw [hid] at hnone
        cases hnone
      · rw [hid] at hempty
        have hrid : rid = "" := by
          injection hempty
        subst hrid
        have hb : ¬ (reward.type = RewardType.building ∧ "" ≠ "" ∧ "" ∉ buildingIds) :=
          fun hc => hc.2.1 rfl
        have hr : ¬ (reward.type = RewardType.rail ∧ "" ≠ "" ∧ "" ∉ railIds) :=
          fun hc => hc.2.1 rfl
        rw [if_neg hb, if_neg hr]
        rfl
  · intro buildingIds railIds corp e he
    unfold corporationRewardErrors at he
    rw [List.mem_flatMap] at he
    obtain ⟨level, hlevel, he⟩ := he
    rw [List.mem_flatMap] at he
    obtain ⟨reward, hreward, he⟩ := he
    rcases hid : reward.id with _ | rid
    · rw [hid] at he; cases he
    · rw [hid] at he
      dsimp only at he
      rw [List.mem_append] at he
      refine ⟨level, hlevel, reward, hreward, rid, hid, ?_⟩
      rcases he with he | he <;> split_ifs at he with hc
      · rw [List.mem_singleton] at he
        exact ⟨hc.2.1, Or.inl ⟨hc.1, hc.2.2, he⟩⟩
      · cases he
      · rw [List.mem_singleton] at he
        exact ⟨hc.2.1, Or.inr ⟨hc.1, hc.2.2, he⟩⟩
      · cases he
  · intro buildingIds railIds corp level reward rid hlevel hreward hid hne
    constructor
    · intro htype hnot
      unfold corporationRewardErrors
      rw [List.mem_flatMap]
      refine ⟨level, hlevel, ?_⟩
      rw [List.mem_flatMap]
      refine ⟨reward, hreward, ?_⟩
      rw [hid]
      dsimp only
      rw [List.mem_append]
      left
      rw [if_pos ⟨htype, hne, hnot⟩]
      exact List.mem_singleton_self _
    · intro htype hnot
      unfold corporationRewardErrors
      rw [List.mem_flatMap]
      refine ⟨level, hlevel, ?_⟩
      rw [List.mem_flatMap]
      refine ⟨reward, hreward, ?_⟩
      rw [hid]
      dsimp only
      rw [List.mem_append]
      right
      rw [if_pos ⟨htype, hne, hnot⟩]
      exact List.mem_singleton_self _

/-- A corporation level granting one checkable building reward with a
non-empty unresolved id. -/
def unresolvedBuildingRewardLevel : CorporationLevel :=
  { level := 3, xp := 100, components := []
    rewards := [{ type := RewardType.building, id := some "missing_bld" }] }

def unresolvedBuildingRewardCorp : Corporation :=
  { id := "selenian_corporation", name := "Selenian", description := ""
    levels := [unresolvedBuildingRewardLevel] }

/-- A corporation whose rewards are entirely non-checkable types. -/
def nonCheckableRewardsCorp : Corporation :=
  { id := "cryo_corp", name := "Cryo", description := ""
    levels := [{ level := 1, xp := 0, components := []
                 rewards := [{ type := RewardType.utility, name := some "Scanner" },
                             { type := RewardType.currency, name := some "Credits", amount := some 500 },
                             { type := RewardType.meta, name := some "Title" }] }] }

/-- Witness for the amended C4 at concrete inputs: an unresolved
building-type reward with non-empty id "missing_bld" at level 3 produces its
MISSING_BUILDING_REF violation (message naming corporation and level), and a
corporation with only non-checkable reward types produces no violations. -/
theorem validateGameData_reward_ref_check_witness :
    (mkCorpBuildingError "selenian_corporation" 3 "missing_bld"
      ∈ corporationRewardErrors [] [] unresolvedBuildingRewardCorp)
    ∧ corporationRewardErrors ["b"] ["r"] nonCheckableRewardsCorp = [] := by
  constructor
  · exact ((validateGameData_reward_ref_check
        { items := [], buildings := [], recipes := [], rails := [], corporations := [] }).2.2.2
      [] [] unresolvedBuildingRewardCorp unresolvedBuildingRewardLevel
      { type := RewardType.building, id := some "missing_bld" } "missing_bld"
      (by decide) (by decide) rfl (by decide)).1 rfl (by decide)
  · exact (validateGameData_reward_ref_check
        { items := [], buildings := [], recipes := [], rails := [], corporations := [] }).2.1
      ["b"] ["r"] nonCheckableRewardsCorp (by decide)

-- ─────────────────────────────────────────────────────────────
-- Index-builder lemmas
-- ─────────────────────────────────────────────────────────────

theorem jsOfList_keyed_length (getId : α → String) (l : List α)
    (h : (l.map getId).Nodup) :
    (jsOfList (l.map fun x => (getId x, x))).length = l.length := by
  rw [jsOfList_of_nodup_keys]
  · simp
  · rw [List.map_map]
    simpa [Function.comp] using h

theorem jsGet_jsOfList_keyed (getId : α → String) (l : List α)
    (h : (l.map getId).Nodup) (x : α) (hx : x ∈ l) :
    jsGet (jsOfList (l.map fun y => (getId y, y))) (getId x) = some x := by
  have hk : ((l.map fun y => (getId y, y)).map Prod.fst).Nodup := by
    rw [List.map_map]
    simpa [Function.comp] using h
  rw [jsOfList_of_nodup_keys _ hk]
  exact jsGet_of_nodup_keys_mem _ _ _ hk (List.mem_map_of_mem _ hx)

/-- Two distinct item records sharing the id "ore". -/
def dupIdItemA : Item := { id := "ore", name := "Ore A", type := ItemType.raw, tier := 0 }

def dupIdItemB : Item := { id := "ore", name := "Ore B", type := ItemType.raw, tier := 1 }

def dupIdRawData : RawGameData :=
  { items := [dupIdItemA, dupIdItemB], buildings := [], recipes := [], rails := [],
    corporations := [] }

/-- Counterexample to claim C6 as stated: on an input whose items collection
contains n = 2 records (with a duplicated id), `buildGameDataMaps` produces
an items table of size 1, not 2, and looking up the first record's id
returns the second record, not a value equal to the first — the later
record silently overwrites the earlier one. -/
theorem buildGameDataMaps_duplicate_id_cex :
    dupIdRawData.items.length = 2
    ∧ (buildGameDataMaps dupIdRawData).items.length = 1
    ∧ dupIdItemA ∈ dupIdRawData.items
    ∧ jsGet (buildGameDataMaps dupIdRawData).items dupIdItemA.id = some dupIdItemB
    ∧ some dupIdItemB ≠ some dupIdItemA := by
  refine ⟨rfl, rfl, by decide, rfl, by decide⟩

/-- Claim C6 (amended): for every `RawGameData` input whose collection
contains n records *with pairwise-distinct ids* (as validation guarantees),
`buildGameDataMaps` produces for that collection a primary table of size n,
and looking up each input record's id returns a value equal to the original
record.  (Without the distinctness hypothesis the later duplicate silently
overwrites the earlier one, as the counterexample shows.) -/
theorem buildGameDataMaps_roundtrip (raw : RawGameData) :
    ((raw.items.map Item.id).Nodup →
      (buildGameDataMaps raw).items.length = raw.items.length
      ∧ ∀ item, item ∈ raw.items →
          jsGet (buildGameDataMaps raw).items item.id = some item)
    ∧ ((raw.buildings.map Building.id).Nodup →
      (buildGameDataMaps raw).buildings.length = raw.buildings.length
      ∧ ∀ building, building ∈ raw.buildings →
          jsGet (buildGameDataMaps raw).buildings building.id = some building)
    ∧ ((raw.recipes.map Recipe.id).Nodup →
      (buildGameDataMaps raw).recipes.length = raw.recipes.length
      ∧ ∀ recipe, recipe ∈ raw.recipes →
          jsGet (buildGameDataMaps raw).recipes recipe.id = some recipe)
    ∧ ((raw.rails.map Rail.id).Nodup →
      (buildGameDataMaps raw).rails.length = raw.rails.length
      ∧ ∀ rail, rail ∈ raw.rails →
          jsGet (buildGameDataMaps raw).rails rail.id = some rail)
    ∧ ((raw.corporations.map Corporation.id).Nodup →
      (buildGameDataMaps raw).corporations.length = raw.corporations.length
      ∧ ∀ corp, corp ∈ raw.corporations →
          jsGet (buildGameDataMaps raw).corporations corp.id = some corp) := by
  refine ⟨?_, ?_, ?_, ?_, ?_⟩ <;>
    exact fun h =>
      ⟨jsOfList_keyed_length _ _ h, fun x hx => jsGet_jsOfList_keyed _ _ h x hx⟩

def distinctIdItemB : Item := { id := "ore2", name := "Ore B", type := ItemType.raw, tier := 1 }

def distinctIdRawData : RawGameData :=
  { items := [dupIdItemA, distinctIdItemB], buildings := [], recipes := [], rails := [],
    corporations := [] }

/-- Witness for the amended C6: with two distinct-id items the table has
size 2 and each record is recoverable by its id. -/
theorem buildGameDataMaps_roundtrip_witness :
    (buildGameDataMaps distinctIdRawData).items.length = 2
    ∧ jsGet (buildGameDataMaps distinctIdRawData).items "ore" = some dupIdItemA := by
  have h := (buildGameDataMaps_roundtrip distinctIdRawData).1 (by decide)
  exact ⟨h.1, h.2 dupIdItemA (by decide)⟩

theorem mem_buildBuildingsByCorporation (buildings : JsMap String Building)
    (k : String) (x : Building) :
    (x ∈ (jsGet (buildBuildingsByCorporation buildings) k).getD [])
      ↔ (x ∈ jsValues buildings ∧ ∃ u, x.unlockedBy = some u ∧ u.corporation = k) := by
  unfold buildBuildingsByCorporation
  suffices general : ∀ (l : List Building) (acc : JsMap String (List Building)),
      (x ∈ (jsGet (l.foldl (fun index building =>
          match building.unlockedBy with
          | some u => groupPush index u.corporation building
          | none => index) acc) k).getD [])
        ↔ (x ∈ (jsGet acc k).getD [])
          ∨ (x ∈ l ∧ ∃ u, x.unlockedBy = some u ∧ u.corporation = k) by
    have h := general (jsValues buildings) []
    simpa [jsGet] using h
  intro l
  induction l with
  | nil => intro acc; simp
  | cons b rest ih =>
    intro acc
    rw [List.foldl_cons]
    rcases hub : b.unlockedBy with _ | u
    · dsimp only
      rw [ih acc]
      constructor
      · rintro (h | h)
        · exact Or.inl h
        · exact Or.inr ⟨List.mem_cons_of_mem _ h.1, h.2⟩
      · rintro (h | ⟨hm, hp⟩)
        · exact Or.inl h
        · rcases List.mem_cons.mp hm with he | hm2
          · subst he
            obtain ⟨u2, hu2, _⟩ := hp
            rw [hub] at hu2
            cases hu2
          · exact Or.inr ⟨hm2, hp⟩
    · dsimp only
      rw [ih (groupPush acc u.corporation b)]
      constructor
      · rintro (h | h)
        · rw [mem_groupPush] at h
          rcases h with h | ⟨hk, hx⟩
          · exact Or.inl h
          · subst hx
            exact Or.inr ⟨List.mem_cons_self _ _, u, hub, hk.symm⟩
        · exact Or.inr ⟨List.mem_cons_of_mem _ h.1, h.2⟩
      · rintro (h | ⟨hm, u2, hu2, hcorp⟩)
        · left
          rw [mem_groupPush]
          exact Or.inl h
        · rcases List.mem_cons.mp hm with he | hm2
          · subst he
            rw [hub] at hu2
            injection hu2 with he2
            subst he2
            left
            rw [mem_groupPush]
            exact Or.inr ⟨hcorp.symm, rfl⟩
          · exact Or.inr ⟨hm2, u2, hu2, hcorp⟩

/-- Claim C8: in the buildings-grouped-by-unlocking-corporation index
produced by `buildGameDataIndices`, every building that has an `unlockedBy`
requirement appears exactly in the group keyed by its
`unlockedBy.corporation` (membership in a group holds iff the key is that
corporation id), and every building lacking an unlock requirement appears
under no key at all — including no empty-string key. -/
theorem buildingsByCorporation_groups (data : GameData) (b : Building)
    (hb : b ∈ jsValues data.buildings) :
    (∀ u, b.unlockedBy = some u →
      ∀ k, (b ∈ (jsGet ((buildGameDataIndices data).buildingsByCorporation) k).getD [])
        ↔ k = u.corporation)
    ∧ (b.unlockedBy = none →
      ∀ k, b ∉ (jsGet ((buildGameDataIndices data).buildingsByCorporation) k).getD []) := by
  have hidx : (buildGameDataIndices data).buildingsByCorporation
      = buildBuildingsByCorporation data.buildings := rfl
  constructor
  · intro u hu k
    rw [hidx, mem_buildBuildingsByCorporation]
    constructor
    · rintro ⟨_, u2, hu2, hc⟩
      rw [hu] at hu2
      injection hu2 with he
      subst he
      exact hc.symm
    · intro hk
      exact ⟨hb, u, hu, hk.symm⟩
  · intro hu k
    rw [hidx, mem_buildBuildingsByCorporation]
    rintro ⟨_, u2, hu2, _⟩
    rw [hu] at hu2
    cases hu2

def selenianUnlock : UnlockRequirement := { corporation := "selenian", level := some 1 }

/-- An unlockable building and a free building for the C8 witness. -/
def unlockableDrill : Building :=
  { id := "drill", name := "Drill", type := BuildingType.extraction, size := 3
    power := 5, heat := 2, inputSockets := 0, outputSockets := 1
    unlockedBy := some selenianUnlock }

def freeHabitat : Building :=
  { id := "hut", name := "Hut", type := BuildingType.habitat, size := 2
    power := 1, heat := 0, inputSockets := 0, outputSockets := 0 }

def corpGroupingGameData : GameData :=
  { items := [], buildings := [("drill", unlockableDrill), ("hut", freeHabitat)]
    recipes := [], rails := [], corporations := [] }

/-- Witness for C8 at a concrete dataset: the unlockable building is in its
corporation's group and the building without an unlock requirement is in no
group, not even the empty-string one. -/
theorem buildingsByCorporation_groups_witness :
    (unlockableDrill ∈
      (jsGet ((buildGameDataIndices corpGroupingGameData).buildingsByCorporation)
        "selenian").getD [])
    ∧ (freeHabitat ∉
      (jsGet ((buildGameDataIndices corpGroupingGameData).buildingsByCorporation)
        "selenian").getD [])
    ∧ (freeHabitat ∉
      (jsGet ((buildGameDataIndices corpGroupingGameData).buildingsByCorporation)
        "").getD []) := by
  refine ⟨?_, ?_, ?_⟩
  · exact ((buildingsByCorporation_groups corpGroupingGameData unlockableDrill
      (by decide)).1 selenianUnlock rfl "selenian").mpr rfl
  · exact (buildingsByCorporation_groups corpGroupingGameData freeHabitat
      (by decide)).2 rfl "selenian"
  · exact (buildingsByCorporation_groups corpGroupingGameData freeHabitat
      (by decide)).2 rfl ""

theorem buildRailIndices_fst (rails : JsMap String Rail) :
    (buildRailIndices rails).1 = List.insertionSort railCapacityLE (jsValues rails) := rfl

theorem jsGet_railsByMinCapacity (rails : JsMap String Rail) (t : Int) :
    jsGet (buildRailIndices rails).2 t
      = if t ∈ (jsValues rails).map Rail.capacity
        then some ((buildRailIndices rails).1.filter (fun r => decide (t ≤ r.capacity)))
        else none := by
  have h2 : (buildRailIndices rails).2
      = (List.insertionSort (fun a b => a ≤ b)
          (jsSetDedup ((List.insertionSort railCapacityLE (jsValues rails)).map Rail.capacity))).foldl
        (fun m minCapacity =>
          jsSet m minCapacity
            ((List.insertionSort railCapacityLE (jsValues rails)).filter
              (fun r => decide (minCapacity ≤ r.capacity))))
        [] := rfl
  rw [h2, jsGet_foldl_keyed
    (fun c => (List.insertionSort railCapacityLE (jsValues rails)).filter
      (fun r => decide (c ≤ r.capacity)))]
  have hmem : (t ∈ List.insertionSort (fun a b => a ≤ b)
        (jsSetDedup ((List.insertionSort railCapacityLE (jsValues rails)).map Rail.capacity)))
      ↔ t ∈ (jsValues rails).map Rail.capacity := by
    rw [(List.perm_insertionSort (fun a b => a ≤ b) _).mem_iff, mem_jsSetDedup,
      ((List.perm_insertionSort railCapacityLE (jsValues rails)).map Rail.capacity).mem_iff]
  by_cases h : t ∈ (jsValues rails).map Rail.capacity
  · rw [if_pos (hmem.mpr h), if_pos h, buildRailIndices_fst]
  · rw [if_neg (fun hc => h (hmem.mp hc)), if_neg h]
    rfl

theorem getRailsByMinCapacity_loaded_reduce (raw : RawGameData) (t : Int) :
    getRailsByMinCapacity (storeAfterSuccessfulLoad raw) t
      = (match jsGet (buildGameDataIndices (buildGameDataMaps raw)).railsByMinCapacity t with
         | some precomputed => Except.ok precomputed
         | none => Except.ok
            ((buildGameDataIndices (buildGameDataMaps raw)).railsSortedByCapacity.filter
              (fun r => decide (t ≤ r.capacity)))) := rfl

/-- Claim C10: the precomputed fast path and the fallback path of the
min-capacity query agree — for every loaded rail set and every threshold,
`getRailsByMinCapacity` equals the full capacity-sorted rail sequence
filtered for capacity ≥ threshold, whether or not the threshold matches a
precomputed capacity key. -/
theorem getRailsByMinCapacity_eq_sorted_filter (raw : RawGameData) (t : Int) :
    getRailsByMinCapacity (storeAfterSuccessfulLoad raw) t
      = Except.ok
          ((buildGameDataIndices (buildGameDataMaps raw)).railsSortedByCapacity.filter
            (fun r => decide (t ≤ r.capacity))) := by
  rw [getRailsByMinCapacity_loaded_reduce]
  have hkey := jsGet_railsByMinCapacity (buildGameDataMaps raw).rails t
  rw [show (buildGameDataIndices (buildGameDataMaps raw)).railsByMinCapacity
      = (buildRailIndices (buildGameDataMaps raw).rails).2 from rfl, hkey]
  by_cases h : t ∈ (jsValues (buildGameDataMaps raw).rails).map Rail.capacity
  · rw [if_pos h]
    rfl
  · rw [if_neg h]

/-- Claim C5: for every loaded rail set and every threshold `t`:
a precomputed entry exists exactly when `t` matches some rail's capacity
(first conjunct); when it exists, `getRailsByMinCapacity` returns that
precomputed list, which contains exactly the rails with capacity ≥ t (a
permutation of the filtered rail multiset) and is sorted ascending by
capacity (second conjunct); otherwise the query falls back to filtering the
full capacity-sorted sequence, still sorted ascending (third conjunct); and
a threshold strictly above every rail's capacity yields an empty sequence
(fourth conjunct). -/
theorem getRailsByMinCapacity_spec (raw : RawGameData) (t : Int) :
    ((jsGet (buildGameDataIndices (buildGameDataMaps raw)).railsByMinCapacity t).isSome = true
      ↔ t ∈ (jsValues (buildGameDataMaps raw).rails).map Rail.capacity)
    ∧ (∀ pre,
        jsGet (buildGameDataIndices (buildGameDataMaps raw)).railsByMinCapacity t = some pre →
        getRailsByMinCapacity (storeAfterSuccessfulLoad raw) t = Except.ok pre
        ∧ List.Perm pre
            ((jsValues (buildGameDataMaps raw).rails).filter (fun r => decide (t ≤ r.capacity)))
        ∧ pre.Sorted railCapacityLE)
    ∧ (jsGet (buildGameDataIndices (buildGameDataMaps raw)).railsByMinCapacity t = none →
        getRailsByMinCapacity (storeAfterSuccessfulLoad raw) t
          = Except.ok
              ((buildGameDataIndices (buildGameDataMaps raw)).railsSortedByCapacity.filter
                (fun r => decide (t ≤ r.capacity)))
        ∧ ((buildGameDataIndices (buildGameDataMaps raw)).railsSortedByCapacity.filter
            (fun r => decide (t ≤ r.capacity))).Sorted railCapacityLE)
    ∧ ((∀ r, r ∈ jsValues (buildGameDataMaps raw).rails → r.capacity < t) →
        getRailsByMinCapacity (storeAfterSuccessfulLoad raw) t = Except.ok []) := by
  have hkey := jsGet_railsByMinCapacity (buildGameDataMaps raw).rails t
  have hmapeq : (buildGameDataIndices (buildGameDataMaps raw)).railsByMinCapacity
      = (buildRailIndices (buildGameDataMaps raw).rails).2 := rfl
  have hsorted : ((buildGameDataIndices (buildGameDataMaps raw)).railsSortedByCapacity).Sorted
      railCapacityLE := by
    rw [show (buildGameDataIndices (buildGameDataMaps raw)).railsSortedByCapacity
        = List.insertionSort railCapacityLE (jsValues (buildGameDataMaps raw).rails) from rfl]
    exact List.sorted_insertionSort railCapacityLE _
  have hperm : List.Perm
      ((buildGameDataIndices (buildGameDataMaps raw)).railsSortedByCapacity)
      (jsValues (buildGameDataMaps raw).rails) :=
    List.perm_insertionSort railCapacityLE _
  refine ⟨?_, ?_, ?_, ?_⟩
  · rw [hmapeq, hkey]
    by_cases h : t ∈ (jsValues (buildGameDataMaps raw).rails).map Rail.capacity <;>
      simp [h]
  · intro pre hpre
    rw [hmapeq, hkey] at hpre
    by_cases h : t ∈ (jsValues (buildGameDataMaps raw).rails).map Rail.capacity
    · rw [if_pos h] at hpre
      injection hpre with hpre
      subst hpre
      refine ⟨?_, ?_, ?_⟩
      · rw [getRailsByMinCapacity_loaded_reduce, hmapeq, hkey, if_pos h]
      · exact hperm.filter _
      · exact List.Pairwise.filter _ hsorted
    · rw [if_neg h] at hpre
      cases hpre
  · intro hnone
    rw [hmapeq] at hnone
    refine ⟨?_, List.Pairwise.filter _ hsorted⟩
    rw [getRailsByMinCapacity_loaded_reduce, hmapeq, hnone]
  · intro hlt
    rw [getRailsByMinCapacity_loaded_reduce, hmapeq, hkey]
    have hnot : t ∉ (jsValues (buildGameDataMaps raw).rails).map Rail.capacity := by
      intro hmem
      rw [List.mem_map] at hmem
      obtain ⟨r, hr, hcap⟩ := hmem
      exact absurd hcap (by have := hlt r hr; omega)
    rw [if_neg hnot]
    have hnil : ((buildGameDataIndices (buildGameDataMaps raw)).railsSortedByCapacity.filter
        (fun r => decide (t ≤ r.capacity))) = [] := by
      rw [List.filter_eq_nil_iff]
      intro r hr
      have hv : r ∈ jsValues (buildGameDataMaps raw).rails := hperm.mem_iff.mp hr
      have := hlt r hv
      simp
      omega
    rw [hnil]

def demoRail (idStr : String) (c : Int) : Rail :=
  { id := idStr, name := idStr, size := 3, capacity := c, power := 1, heat := 0 }

/-- The rail set from the spec's rail-threshold example: capacities
{60, 120, 240, 480, 720}. -/
def demoRailsRaw : RawGameData :=
  { items := [], buildings := [], recipes := []
    rails := [demoRail "rail_v1" 60, demoRail "rail_v2" 120, demoRail "rail_v3" 240,
              demoRail "rail_v4" 480, demoRail "rail_v5" 720]
    corporations := [] }

/-- Witness for C5 on the spec's example rail set: a threshold above the
maximum capacity yields the empty sequence, an exactly-matching threshold
returns the precomputed ascending list of the four rails with capacity
≥ 120, and a non-matching threshold (90) falls back to filtering with the
same sorted result. -/
theorem getRailsByMinCapacity_spec_witness :
    getRailsByMinCapacity (storeAfterSuccessfulLoad demoRailsRaw) 10000 = Except.ok []
    ∧ getRailsByMinCapacity (storeAfterSuccessfulLoad demoRailsRaw) 120
      = Except.ok [demoRail "rail_v2" 120, demoRail "rail_v3" 240,
          demoRail "rail_v4" 480, demoRail "rail_v5" 720]
    ∧ (jsGet (buildGameDataIndices (buildGameDataMaps demoRailsRaw)).railsByMinCapacity 90
        = none
      ∧ getRailsByMinCapacity (storeAfterSuccessfulLoad demoRailsRaw) 90
        = Except.ok [demoRail "rail_v2" 120, demoRail "rail_v3" 240,
            demoRail "rail_v4" 480, demoRail "rail_v5" 720]) := by
  refine ⟨?_, ?_, ?_, ?_⟩
  · exact (getRailsByMinCapacity_spec demoRailsRaw 10000).2.2.2 (by decide)
  · exact ((getRailsByMinCapacity_spec demoRailsRaw 120).2.1 _ (by decide)).1
  · decide
  · have h := ((getRailsByMinCapacity_spec demoRailsRaw 90).2.2.1 (by decide)).1
    rw [h]
    exact congrArg Except.ok (by decide)

/-- Claim C7: calling any lookup-layer function before a successful load has
completed, or after a load has failed (with nothing ever published), fails
immediately and deterministically with the unambiguous "not loaded" error —
never silently returning empty, null or stale data.  The store model is
spec-modelled (the store module is not among the sources): any state with no
committed snapshot — the fresh `initialStoreState`, and every state a failed
load produces from it, since `storeAfterFailedLoad` publishes nothing — has
`gameData = none` and `indices = none`, and every lookup function then
returns the "not loaded" error for every argument. -/
theorem lookups_fail_before_load (s : GameDataStoreState)
    (hdata : s.gameData = none) (hindices : s.indices = none) :
    (∀ id, getItem s id = Except.error gameDataNotLoadedMessage)
    ∧ (∀ type, getItemsByType s type = Except.error indicesNotLoadedMessage)
    ∧ (∀ tier, getItemsByTier s tier = Except.error indicesNotLoadedMessage)
    ∧ getAllItems s = Except.error gameDataNotLoadedMessage
    ∧ (∀ id, getBuilding s id = Except.error gameDataNotLoadedMessage)
    ∧ (∀ type, getBuildingsByType s type = Except.error indicesNotLoadedMessage)
    ∧ (∀ corpId, getBuildingsByCorporation s corpId = Except.error indicesNotLoadedMessage)
    ∧ getAllBuildings s = Except.error gameDataNotLoadedMessage
    ∧ (∀ id, getRecipe s id = Except.error gameDataNotLoadedMessage)
    ∧ (∀ buildingId, getRecipesByBuilding s buildingId = Except.error indicesNotLoadedMessage)
    ∧ (∀ itemId, getRecipesProducing s itemId = Except.error indicesNotLoadedMessage)
    ∧ (∀ itemId, getRecipesConsuming s itemId = Except.error indicesNotLoadedMessage)
    ∧ getAllRecipes s = Except.error gameDataNotLoadedMessage
    ∧ (∀ id, getRail s id = Except.error gameDataNotLoadedMessage)
    ∧ (∀ minCapacity, getRailsByMinCapacity s minCapacity
        = Except.error indicesNotLoadedMessage)
    ∧ getAllRails s = Except.error gameDataNotLoadedMessage
    ∧ (∀ id, getCorporation s id = Except.error gameDataNotLoadedMessage)
    ∧ getAllCorporations s = Except.error gameDataNotLoadedMessage
    ∧ (∀ corpId, getCorporationLevels s corpId = Except.error gameDataNotLoadedMessage)
    ∧ (∀ corpId level, getRewardsAtLevel s corpId level
        = Except.error indicesNotLoadedMessage)
    ∧ (∀ corpId level type, getRewardsByType s corpId level type
        = Except.error indicesNotLoadedMessage)
    ∧ (∀ corpId level, getRailsUnlockedBy s corpId level
        = Except.error indicesNotLoadedMessage)
    ∧ (∀ corpId level, getBuildingsUnlockedBy s corpId level
        = Except.error indicesNotLoadedMessage)
    ∧ (storeAfterFailedLoad s "load failed").gameData = none
    ∧ (storeAfterFailedLoad s "load failed").indices = none := by
  obtain ⟨gd, idx, il, er⟩ := s
  simp only at hdata hindices
  subst hdata
  subst hindices
  exact ⟨fun _ => rfl, fun _ => rfl, fun _ => rfl, rfl, fun _ => rfl, fun _ => rfl,
    fun _ => rfl, rfl, fun _ => rfl, fun _ => rfl, fun _ => rfl, fun _ => rfl, rfl,
    fun _ => rfl, fun _ => rfl, rfl, fun _ => rfl, rfl, fun _ => rfl,
    fun _ _ => rfl, fun _ _ _ => rfl, fun _ _ => rfl, fun _ _ => rfl, rfl, rfl⟩

/-- Witness for C7: on the fresh, never-loaded store, representative lookup
functions raise the exact "not loaded" errors. -/
theorem lookups_fail_before_load_witness :
    getItem initialStoreState "ore_titanium"
      = Except.error "Game data not loaded. Call loadGameData() first."
    ∧ getItemsByType initialStoreState ItemType.raw
      = Except.error "Game data indices not loaded. Call loadGameData() first."
    ∧ getRailsByMinCapacity initialStoreState 120
      = Except.error "Game data indices not loaded. Call loadGameData() first." := by
  have h := lookups_fail_before_load initialStoreState rfl rfl
  exact ⟨h.1 "ore_titanium", h.2.1 ItemType.raw, h.2.2.2.2.2.2.2.2.2.2.2.2.2.2.1 120⟩

theorem getD_set_self {β : Type} (xs : List β) :
    ∀ (i : Nat) (v d : β), i < xs.length → (xs.set i v).getD i d = v := by
  induction xs with
  | nil =>
    intro i v d h
    simp at h
  | cons x rest ih =>
    intro i v d h
    cases i with
    | zero => rfl
    | succ n =>
      show (rest.set n v).getD n d = v
      refine ih n v d ?_
      simp only [List.length_cons] at h
      omega

theorem buildItemsByTypeShared_addr_lt (items : List Item) :
    ∀ (ty : ItemType) (addr : Nat),
      jsGet (buildItemsByTypeShared items).2 ty = some addr →
      addr < (buildItemsByTypeShared items).1.length := by
  unfold buildItemsByTypeShared
  suffices general : ∀ (l : List Item) (state : ItemHeap × JsMap ItemType Nat),
      (∀ ty addr, jsGet state.2 ty = some addr → addr < state.1.length) →
      ∀ ty addr, jsGet (l.foldl itemsByTypePush state).2 ty = some addr →
        addr < (l.foldl itemsByTypePush state).1.length by
    intro ty addr h
    exact general items ([], []) (by intro ty2 addr2 h2; cases h2) ty addr h
  intro l
  induction l with
  | nil => intro state hstate; exact hstate
  | cons item rest ih =>
    intro state hstate
    rw [List.foldl_cons]
    apply ih
    unfold itemsByTypePush
    rcases hg : jsGet state.2 item.type with _ | addr0
    · dsimp only
      intro ty addr h
      rw [jsGet_jsSet] at h
      by_cases hty : item.type = ty
      · rw [if_pos hty] at h
        injection h with he
        subst he
        simp
      · rw [if_neg hty] at h
        have := hstate ty addr h
        simp only [List.length_append, List.length_singleton]
        omega
    · dsimp only
      intro ty addr h
      have := hstate ty addr h
      simpa [List.length_set] using this

/-- The one item of the C9 counterexample dataset. -/
def sharedListItem : Item :=
  { id := "ore_titanium", name := "Titanium Ore", type := ItemType.raw, tier := 0 }

/-- Counterexample to claim C9 as stated: at reference level,
`getItemsByType` returns the very array object stored in the
items-by-type index (address 0), the caller initially observes the grouping
`[sharedListItem]`, and after the caller mutates the received list to `[]`,
repeating the same query observes `[]` — not the original grouping.  The
lookup layer returns the index's list by reference with no defensive copy
(`return indices.itemsByType.get(type) ?? []`), so caller mutation does
corrupt subsequent lookups, contradicting the claim. -/
theorem getItemsByType_mutation_corrupts :
    getItemsByTypeRef (buildItemsByTypeShared [sharedListItem]).2 ItemType.raw = some 0
    ∧ readItemsRef (buildItemsByTypeShared [sharedListItem]).1
        (getItemsByTypeRef (buildItemsByTypeShared [sharedListItem]).2 ItemType.raw)
      = [sharedListItem]
    ∧ readItemsRef
        (writeItemsRef (buildItemsByTypeShared [sharedListItem]).1 (some 0) [])
        (getItemsByTypeRef (buildItemsByTypeShared [sharedListItem]).2 ItemType.raw)
      = []
    ∧ ([] : List Item) ≠ [sharedListItem] :=
  ⟨rfl, rfl, rfl, by decide⟩

/-- Claim C9 (amended): the grouped lists handed out by the lookup layer are
aliases of the lists held by the index, not defensive copies — whenever
`getItemsByType` resolves to a stored group (an address in the reference
model), a caller that mutates the received list changes exactly what every
subsequent identical query observes (first conjunct), and the query result
is corrupted by the mutation rather than protected from it; only a caller
that performs no mutation keeps observing the original grouping (second
conjunct).  Returned containers must therefore be treated as read-only. -/
theorem getItemsByType_alias_mutation (items : List Item) (ty : ItemType) (addr : Nat)
    (h : getItemsByTypeRef (buildItemsByTypeShared items).2 ty = some addr) :
    (∀ l, readItemsRef
        (writeItemsRef (buildItemsByTypeShared items).1 (some addr) l)
        (getItemsByTypeRef (buildItemsByTypeShared items).2 ty) = l)
    ∧ readItemsRef (buildItemsByTypeShared items).1
        (getItemsByTypeRef (buildItemsByTypeShared items).2 ty)
      = (buildItemsByTypeShared items).1.getD addr [] := by
  have hlt : addr < (buildItemsByTypeShared items).1.length :=
    buildItemsByTypeShared_addr_lt items ty addr h
  constructor
  · intro l
    rw [h]
    show ((buildItemsByTypeShared items).1.set addr l).getD addr [] = l
    exact getD_set_self _ addr l [] hlt
  · rw [h]
    rfl

/-- Witness for the amended C9: on the one-item dataset, writing `[]`
through the returned reference makes the repeated query observe `[]`. -/
theorem getItemsByType_alias_mutation_witness :
    readItemsRef
      (writeItemsRef (buildItemsByTypeShared [sharedListItem]).1 (some 0) [])
      (getItemsByTypeRef (buildItemsByTypeShared [sharedListItem]).2 ItemType.raw)
    = [] :=
  (getItemsByType_alias_mutation [sharedListItem] ItemType.raw 0 rfl).1 []
